import Mathlib

/-!
Verification development for the secure persistence and data-integrity core of a
credential-vault application (Database.cpp / Entry.cpp).  The C++ data model and
operations are shallowly embedded as executable Lean definitions; external
collaborators (file system, KDF provider, file-change monitor, URL parser) are
represented by explicit inputs or simplified models, as noted in doc comments.
-/

namespace KeePass


/-! ### String helpers

QString operations used by the embedded code, implemented structurally over the
character list so that all definitions reduce in the kernel. -/

/-- Uppercase a string character-wise (QString::toUpper on the ASCII range). -/
def upStr (s : String) : String := String.mk (s.data.map Char.toUpper)

/-- Lowercase a string character-wise (QString::toLower on the ASCII range). -/
def lowStr (s : String) : String := String.mk (s.data.map Char.toLower)

/-- QString::startsWith (case sensitive). -/
def startsWithStr (s pre : String) : Bool := pre.data.isPrefixOf s.data

/-- QString::endsWith (case sensitive). -/
def endsWithStr (s suf : String) : Bool := suf.data.isSuffixOf s.data

/-- QString::mid(n, length - n): drop the first n characters. -/
def dropStr (s : String) (n : Nat) : String := String.mk (s.data.drop n)

/-- Drop the last n characters of a string. -/
def dropRightStr (s : String) (n : Nat) : String :=
  String.mk (s.data.take (s.data.length - n))

/-- Number of bytes of the UTF-8 encoding (QString::toUtf8().size()). -/
def utf8Len (s : String) : Nat := s.data.foldl (fun n c => n + c.utf8Size) 0

/-- Split worker: cut the character list at every delimiter. -/
def splitAux (p : Char → Bool) : List Char → List Char → List String
  | [], acc => [String.mk acc.reverse]
  | c :: cs, acc =>
    if p c then String.mk acc.reverse :: splitAux p cs []
    else splitAux p cs (c :: acc)

/-- QString::split with QString::SkipEmptyParts: split at delimiters and drop
empty pieces. -/
def splitSkipEmpty (p : Char → Bool) (s : String) : List String :=
  (splitAux p s.data []).filter (fun t => !t.isEmpty)

/-- Replacement worker over character lists; fuel bounds the scan (one unit per
character consumed, so fuel = length of the subject suffices for a nonempty
pattern). -/
def replChars : Nat → List Char → List Char → List Char → List Char
  | 0, _, _, s => s
  | _ + 1, _, _, [] => []
  | fuel + 1, pat, rep, c :: cs =>
    if pat.isPrefixOf (c :: cs) then rep ++ replChars fuel pat rep ((c :: cs).drop pat.length)
    else c :: replChars fuel pat rep cs

/-- QString::replace(before, after): replace every occurrence of the pattern,
scanning left to right and continuing after each replacement. -/
def strReplace (s pat rep : String) : String :=
  String.mk (replChars s.data.length pat.data rep.data s.data)

/-! ### Entry history retention (Entry::truncateHistory, Entry.cpp 645-698)

A history snapshot is represented by the sizes of its components, which is all
the size pass reads (EntryAttributes::attributesSize and the other size
accessors are plain byte counters outside src), plus the tag string, which the
code splits and measures itself. -/

/-- One history snapshot of an Entry, abstracted to the data the retention
passes read. -/
structure HistEntry where
  attributesSize : Nat
  associationsSize : Nat
  attachmentsSize : Nat
  customDataSize : Nat
  tags : String
deriving Repr, DecidableEq

/-- Delimiter set of the QRegularExpression ",|:|;" used on the tag string. -/
def isTagDelim (c : Char) : Bool := c = ',' || c = ':' || c = ';'

/-- Byte-size contribution of the tag string: split at the delimiters, skip
empty parts, sum the UTF-8 sizes (Entry.cpp 685-688). -/
def tagsSize (s : String) : Nat :=
  (splitSkipEmpty isTagDelim s).foldl (fun n t => n + utf8Len t) 0

/-- Byte-size estimate one history item adds to the running total
(Entry.cpp 681-688): attributes + auto-type associations + attachments +
custom data + tag text. -/
def histSize (h : HistEntry) : Nat :=
  h.attributesSize + h.associationsSize + h.attachmentsSize + h.customDataSize + tagsSize h.tags

/-- Count pass of Entry::truncateHistory (lines 654-666): the iterator walks
from the back (newest) with a counter and removes every item once the counter
exceeds the limit, so exactly the newest histMaxItems items survive. -/
def truncByCount (histMaxItems : Nat) (history : List HistEntry) : List HistEntry :=
  ((history.reverse.take histMaxItems).reverse)

/-- Size pass of Entry::truncateHistory (lines 668-697) on the newest-first
list: the running total only accumulates while still at or below the limit
(line 680), and an item is deleted whenever the total after its visit exceeds
the limit (line 692). -/
def truncBySize (histMaxSize : Nat) : List HistEntry → Nat → List HistEntry
  | [], _ => []
  | h :: rest, size =>
    let size2 := if size ≤ histMaxSize then size + histSize h else size
    if size2 > histMaxSize then truncBySize histMaxSize rest size2
    else h :: truncBySize histMaxSize rest size2

/-- Entry::truncateHistory (lines 645-698): the count pass runs when
historyMaxItems > -1, then the size pass runs when historyMaxSize > -1; the
history list is kept oldest-first (addHistoryItem appends), and both passes
walk it newest-first. -/
def truncateHistory (histMaxItems histMaxSize : Int) (history : List HistEntry) : List HistEntry :=
  let h1 := if histMaxItems > -1 then truncByCount histMaxItems.toNat history else history
  if histMaxSize > -1 then (truncBySize histMaxSize.toNat h1.reverse 0).reverse else h1

/-- Spec reading of the size limit: walking newest to oldest, an item survives
exactly when the running total through it stays within the limit; at the first
exceedance every remaining (older) item is deleted regardless of its own
size. -/
def keepWhileUnder (limit : Nat) : List HistEntry → Nat → List HistEntry
  | [], _ => []
  | h :: rest, acc =>
    if acc + histSize h ≤ limit then h :: keepWhileUnder limit rest (acc + histSize h)
    else []

/-! ### Key material (Database::setKey / Database::changeKdf, Database.cpp 686-732
and 892-910)

Key bytes are abstract lists of naturals; the empty list is the empty marker
(a fresh PasswordKey holding no hash).  The Kdf object (crypto/kdf, outside
src) is reduced to its seed plus opaque parameters; randomizeSeed is modelled
by an explicitly supplied fresh seed.  CompositeKey (keys/CompositeKey.cpp,
outside src) is modelled from the spec as an ordered component set, and its
transform operation - the pluggable KDF derivation, which may fail - is passed
in as a function returning Option. -/

/-- Raw key bytes. -/
abbrev Bytes := List Nat

/-- Abstract KDF configuration: a random seed plus opaque remaining
parameters. -/
structure KdfConfig where
  seed : Nat
  params : Nat
deriving Repr, DecidableEq

/-- Modelled from the spec: CompositeKey is the ordered set of key components,
each producing raw bytes (CompositeKey.cpp is not under src). -/
structure CompositeKey where
  components : List Bytes
deriving Repr, DecidableEq

/-- The key-related slice of Database::DatabaseData: the nullable composite
key, the transformed master key bytes (empty list = empty marker), the hasKey
flag, the KDF configuration, and the database modified flag. -/
structure KeyData where
  key : Option CompositeKey
  transformedMasterKey : Bytes
  hasKey : Bool
  kdf : KdfConfig
  modified : Bool
deriving Repr, DecidableEq

/-- Database::setKey (Database.cpp 686-732).  A null key clears everything; a
nonnull key optionally re-randomizes the KDF seed, computes the new
transformed key (reusing the previous bytes verbatim when transformKey is
false, running the supplied KDF otherwise, which may fail), installs the key,
stores the new hash only when it is nonempty, sets hasKey, and marks the
database modified when the transformed key changed.  The metadata
master-key-changed timestamp update (updateChangedTime) touches only Metadata
and is outside this state slice.  Returns the new state and the success
flag. -/
def setKey (st : KeyData) (key : Option CompositeKey)
    (updateTransformSalt transformKey : Bool)
    (transform : CompositeKey → KdfConfig → Option Bytes) (freshSeed : Nat) :
    KeyData × Bool :=
  match key with
  | none => ({ st with key := none, transformedMasterKey := [], hasKey := false }, true)
  | some k =>
    let st1 := if updateTransformSalt then { st with kdf := { st.kdf with seed := freshSeed } }
               else st
    let oldTransformedMasterKey : Bytes := if st1.hasKey then st1.transformedMasterKey else []
    let tmkResult : Option Bytes :=
      if transformKey = false then some oldTransformedMasterKey
      else transform k st1.kdf
    match tmkResult with
    | none => (st1, false)
    | some tmk =>
      let st2 := { st1 with
        key := some k
        transformedMasterKey := if tmk ≠ [] then tmk else st1.transformedMasterKey
        hasKey := true }
      let st3 := if oldTransformedMasterKey ≠ st2.transformedMasterKey
                 then { st2 with modified := true } else st2
      (st3, true)

/-- Database::changeKdf (Database.cpp 892-910): randomize the new
configuration's seed, create an empty composite key when none is stored, run
the derivation, and only on success install the new configuration and
transformed key and mark the database modified. -/
def changeKdf (st : KeyData) (newKdf : KdfConfig)
    (transform : CompositeKey → KdfConfig → Option Bytes) (freshSeed : Nat) :
    KeyData × Bool :=
  let kdf2 : KdfConfig := { newKdf with seed := freshSeed }
  let key : CompositeKey := match st.key with
    | some k => k
    | none => { components := [] }
  match transform key kdf2 with
  | none => ({ st with key := some key }, false)
  | some tmk =>
    ({ st with key := some key, kdf := kdf2, transformedMasterKey := tmk, modified := true },
     true)

/-! ### Persistence engine (Database::saveAs / performSave / backupDatabase /
restoreDatabase, Database.cpp 202-456)

The file system is reduced to the three locations a save touches: the target
path, the backup path (stem.old.ext) and the temporary file path; file content
is an abstract natural, none meaning the file does not exist.  Qt file
operations (QSaveFile, QTemporaryFile, QFile rename and copy) can each fail;
the fault-injection switches say which ones succeed on this run.  QSaveFile
guarantees the target is untouched unless commit succeeds, and QTemporaryFile
removes its file on destruction unless auto-remove was disabled; both
guarantees are built into the model below exactly where the code relies on
them.  The file-change monitor (FileWatcher, outside src) is represented by
its hasSameFileChecksum report, passed in as an input. -/

/-- The slice of the file system a save touches; none = file absent. -/
structure FS where
  target : Option Nat
  backup : Option Nat
  temp : Option Nat
deriving Repr, DecidableEq

/-- Fault-injection switches for the external file operations of one save. -/
structure SaveFaults where
  openOk : Bool
  writeOk : Bool
  commitOk : Bool
  renameOk : Bool
  restoreCopyOk : Bool
deriving Repr, DecidableEq

/-- Database::backupDatabase (lines 425-434): remove any prior backup, then
copy the target over it; the copy fails when the source is absent, leaving no
backup file. -/
def backupDatabase (fs : FS) : FS × Bool :=
  match fs.target with
  | some d => ({ fs with backup := some d }, true)
  | none => ({ fs with backup := none }, false)

/-- Database::restoreDatabase (lines 444-456): only when the backup file
exists, remove the target and copy the backup over it; the copy itself can
fail (copyOk), leaving the target removed. -/
def restoreDatabase (fs : FS) (copyOk : Bool) : FS × Bool :=
  match fs.backup with
  | some d =>
    if copyOk then ({ fs with target := some d }, true)
    else ({ fs with target := none }, false)
  | none => (fs, false)

/-- Failure modes of Database::performSave.  renameErrorTempKept carries the
temporary file path because the C++ error string is built as
"errorString newline Backup database located at tempFileName" (line 294). -/
inductive SaveError where
  | saveFileError
  | writeError
  | renameErrorTempKept (tempPath : String)
  | tempFileError
deriving Repr, DecidableEq

/-- Database::performSave (lines 242-307).  Atomic mode writes through a
QSaveFile and commits by durable rename, so the target changes only when
commit succeeds.  Non-atomic mode writes a temporary file, optionally backs up
the target, removes the target, and renames the temporary file into place; if
that rename fails it restores from the backup when one was made, and when no
backup was made or the restore also fails it keeps the temporary file
(auto-remove disabled) and reports its path in the error. -/
def performSave (fs : FS) (faults : SaveFaults) (atomic backup : Bool) (newData : Nat)
    (tempPath : String) : FS × Except SaveError Unit :=
  if atomic then
    if faults.openOk then
      if faults.writeOk then
        let fs1 := if backup then (backupDatabase fs).1 else fs
        if faults.commitOk then ({ fs1 with target := some newData }, Except.ok ())
        else (fs1, Except.error SaveError.saveFileError)
      else (fs, Except.error SaveError.writeError)
    else (fs, Except.error SaveError.saveFileError)
  else
    if faults.openOk then
      if faults.writeOk then
        let fsW := { fs with temp := some newData }
        let fsB := if backup then (backupDatabase fsW).1 else fsW
        let fsR := { fsB with target := none }
        if faults.renameOk then
          ({ fsR with target := some newData, temp := none }, Except.ok ())
        else if backup = false then
          (fsR, Except.error (SaveError.renameErrorTempKept tempPath))
        else
          let res := restoreDatabase fsR faults.restoreCopyOk
          if res.2 then ({ res.1 with temp := none }, Except.error SaveError.tempFileError)
          else (res.1, Except.error (SaveError.renameErrorTempKept tempPath))
      else ({ fs with temp := none }, Except.error SaveError.writeError)
    else (fs, Except.error SaveError.tempFileError)

/-- The slice of Database state saveAs reads and writes. -/
structure DbFileCtx where
  filePath : String
  isReadOnly : Bool
  modified : Bool
deriving Repr, DecidableEq

/-- Failure modes of Database::saveAs. -/
inductive SaveAsError where
  | readOnlyError
  | unmergedChangesError
  | performError (e : SaveError)
deriving Repr, DecidableEq

/-- Database::saveAs (lines 202-240).  Saving to the current path is rejected
when the database is read-only, and otherwise rejected with the
unmerged-changes error unless the file-change monitor reports the on-disk
checksum unchanged.  Past those checks the read-only flag is cleared and
performSave runs; on success the database is marked clean and the path
recorded, on failure it is marked modified.  Watcher stop/start and path
canonicalization have no effect on this state slice. -/
def saveAs (ctx : DbFileCtx) (fs : FS) (targetPath : String) (hasSameFileChecksum : Bool)
    (faults : SaveFaults) (atomic backup : Bool) (newData : Nat) (tempPath : String) :
    DbFileCtx × FS × Except SaveAsError Unit :=
  if targetPath = ctx.filePath ∧ ctx.isReadOnly then
    (ctx, fs, Except.error SaveAsError.readOnlyError)
  else if targetPath = ctx.filePath ∧ hasSameFileChecksum = false then
    (ctx, fs, Except.error SaveAsError.unmergedChangesError)
  else
    let ctx1 := { ctx with isReadOnly := false }
    let sr := performSave fs faults atomic backup newData tempPath
    match sr.2 with
    | Except.ok _ =>
      ({ ctx1 with modified := false, filePath := targetPath }, sr.1, Except.ok ())
    | Except.error e =>
      ({ ctx1 with modified := true }, sr.1, Except.error (SaveAsError.performError e))

/-! ### Object graph: groups, entries, databases (Entry::setGroup,
Entry::~Entry, Database::recycleEntry / createRecycleBin / addDeletedObject)

Groups, entries and databases live in arenas indexed by numeric ids; uuids are
abstract naturals.  Group.cpp and Metadata.cpp are not under src, so the group
membership bookkeeping (Group::addEntry / removeEntry / setParent) and the
metadata accessors (recycleBin, recycleBinEnabled, custom icon store) are
modelled from the spec: parents own the ordered child/entry lists, entries
keep a non-owning back reference, and each group records the database its tree
belongs to.  Clock::currentDateTimeUtc is the world's abstract now. -/

/-- Abstract uuid. -/
abbrev Uuid := Nat

/-- A DeletedObject tombstone: uuid plus UTC deletion time. -/
structure DeletedObject where
  uuid : Uuid
  deletionTime : Nat
deriving Repr, DecidableEq

/-- Group tri-state flags (Group::TriState). -/
inductive TriState where
  | Inherit
  | Enable
  | Disable
deriving Repr, DecidableEq

/-- Modelled from the spec: the Group fields this core reads and writes
(Group.h/Group.cpp are not under src).  parent is the owning parent group
(none for a root), db the owning database, entries the ordered entry ids. -/
structure GroupNode where
  uuid : Uuid
  name : String
  iconNumber : Nat
  searchingEnabled : TriState
  autoTypeEnabled : TriState
  parent : Option Nat
  db : Option Nat
  entries : List Nat
deriving Repr, DecidableEq

/-- The Entry fields the reparent/destroy/recycle operations read: uuid,
optional custom icon uuid, owning group back-reference. -/
structure EntryNode where
  uuid : Uuid
  customIcon : Option Uuid
  group : Option Nat
deriving Repr, DecidableEq

/-- One Database: root group id, Metadata recycle-bin state, tombstone list,
and the metadata custom icon store (as the set of stored icon uuids). -/
structure DbNode where
  rootGroup : Nat
  recycleBin : Option Nat
  recycleBinEnabled : Bool
  deletedObjects : List DeletedObject
  customIcons : List Uuid
deriving Repr, DecidableEq

/-- The whole object graph: arenas for groups, entries and databases, a fresh
id and uuid supply, and the current UTC time. -/
structure World where
  groups : Nat → Option GroupNode
  entries : Nat → Option EntryNode
  dbs : Nat → Option DbNode
  nextId : Nat
  nextUuid : Uuid
  now : Nat

/-- Group arena lookup. -/
def getGroup (w : World) (gid : Nat) : Option GroupNode := w.groups gid

/-- Entry arena lookup. -/
def getEntry (w : World) (eid : Nat) : Option EntryNode := w.entries eid

/-- Database arena lookup. -/
def getDb (w : World) (dbId : Nat) : Option DbNode := w.dbs dbId

/-- Update one group in place. -/
def updGroup (w : World) (gid : Nat) (f : GroupNode → GroupNode) : World :=
  { w with groups := fun n => if n = gid then (w.groups n).map f else w.groups n }

/-- Update one entry in place. -/
def updEntry (w : World) (eid : Nat) (f : EntryNode → EntryNode) : World :=
  { w with entries := fun n => if n = eid then (w.entries n).map f else w.entries n }

/-- Update one database in place. -/
def updDb (w : World) (dbId : Nat) (f : DbNode → DbNode) : World :=
  { w with dbs := fun n => if n = dbId then (w.dbs n).map f else w.dbs n }

/-- Database::addDeletedObject(uuid) (Database.cpp 600-613): append a
tombstone carrying the uuid and the current UTC time; duplicates allowed. -/
def addDeletedObject (w : World) (dbId : Nat) (uuid : Uuid) : World :=
  updDb w dbId (fun d =>
    { d with deletedObjects := d.deletedObjects ++ [{ uuid := uuid, deletionTime := w.now }] })

/-- Modelled from the spec: Group::removeEntry detaches an entry from its
parent group's ordered list (Group.cpp is not under src). -/
def groupRemoveEntry (w : World) (gid eid : Nat) : World :=
  updGroup w gid (fun g => { g with entries := g.entries.erase eid })

/-- Modelled from the spec: Group::addEntry appends an entry to the parent
group's ordered list (Group.cpp is not under src). -/
def groupAddEntry (w : World) (gid eid : Nat) : World :=
  updGroup w gid (fun g => { g with entries := g.entries ++ [eid] })

/-- Metadata::containsCustomIcon on a database's icon store. -/
def containsCustomIcon (w : World) (dbId : Nat) (icon : Uuid) : Bool :=
  match getDb w dbId with
  | some d => d.customIcons.contains icon
  | none => false

/-- Metadata::addCustomIcon on a database's icon store. -/
def addCustomIcon (w : World) (dbId : Nat) (icon : Uuid) : World :=
  updDb w dbId (fun d => { d with customIcons := d.customIcons ++ [icon] })

/-- Entry::setGroup (Entry.cpp 992-1022): no-op when already in the target
group; otherwise detach from the old group, and when the old group belongs to
a database different from the target group's database, record a tombstone for
the entry's uuid in the source database and copy the entry's custom icon (if
any) into the destination database's metadata when the source has it and the
destination does not; finally attach to the target group.  (The
locationChanged timestamp update touches only the entry's TimeInfo and is not
part of this state.) -/
def entrySetGroup (w : World) (eid gid : Nat) : World :=
  match getEntry w eid, getGroup w gid with
  | some e, some g =>
    if e.group = some gid then w
    else
      let w1 :=
        match e.group with
        | none => w
        | some og =>
          let wr := groupRemoveEntry w og eid
          match (getGroup w og).bind (fun gg => gg.db) with
          | none => wr
          | some srcDb =>
            if some srcDb ≠ g.db then
              let wd := addDeletedObject wr srcDb e.uuid
              match e.customIcon, g.db with
              | some icon, some dstDb =>
                if containsCustomIcon wd srcDb icon ∧ ¬ containsCustomIcon wd dstDb icon
                then addCustomIcon wd dstDb icon
                else wd
              | _, _ => wd
            else wr
      groupAddEntry (updEntry w1 eid (fun en => { en with group := some gid })) gid eid
  | _, _ => w

/-- Entry::~Entry (Entry.cpp 62-74): detach from the owning group, record a
tombstone when that group is attached to a database, then release the entry
(history snapshots are owned by the entry and carry no tombstones). -/
def entryDestroy (w : World) (eid : Nat) : World :=
  match getEntry w eid with
  | none => w
  | some e =>
    let w1 :=
      match e.group with
      | none => w
      | some og =>
        let wr := groupRemoveEntry w og eid
        match (getGroup w og).bind (fun gg => gg.db) with
        | some dbId => addDeletedObject wr dbId e.uuid
        | none => wr
    { w1 with entries := fun n => if n = eid then none else w1.entries n }

/-- Group::RecycleBinIconNumber; Group.h is not under src, the fixed icon
index is abstracted as a constant. -/
def RecycleBinIconNumber : Nat := 43

/-- Database::createRecycleBin (Database.cpp 776-789): a fresh group with a
fresh uuid, parented directly under the root group, fixed name and icon,
searching and auto-type disabled, recorded in Metadata as the recycle bin. -/
def createRecycleBin (w : World) (dbId : Nat) : World :=
  match getDb w dbId with
  | none => w
  | some db =>
    let gid := w.nextId
    let node : GroupNode :=
      { uuid := w.nextUuid, name := "Recycle Bin", iconNumber := RecycleBinIconNumber,
        searchingEnabled := TriState.Disable, autoTypeEnabled := TriState.Disable,
        parent := some db.rootGroup, db := some dbId, entries := [] }
    let w1 : World :=
      { w with groups := fun n => if n = gid then some node else w.groups n,
               nextId := w.nextId + 1, nextUuid := w.nextUuid + 1 }
    updDb w1 dbId (fun d => { d with recycleBin := some gid })

/-- Database::recycleEntry (Database.cpp 791-802): with the recycle-bin
feature enabled, lazily create the bin and move the entry under it; with it
disabled, destroy the entry (whose destructor records the tombstone). -/
def recycleEntry (w : World) (dbId eid : Nat) : World :=
  match getDb w dbId with
  | none => w
  | some db =>
    if db.recycleBinEnabled then
      let w1 := if db.recycleBin = none then createRecycleBin w dbId else w
      match (getDb w1 dbId).bind (fun d => d.recycleBin) with
      | some bin => entrySetGroup w1 eid bin
      | none => w1
    else entryDestroy w eid

/-- Concrete root group for the recycle witness world. -/
def g4 : GroupNode :=
  { uuid := 100, name := "Root", iconNumber := 0, searchingEnabled := TriState.Inherit,
    autoTypeEnabled := TriState.Inherit, parent := none, db := some 0, entries := [5] }

/-- Concrete entry for the recycle witness world. -/
def e4 : EntryNode := { uuid := 50, customIcon := none, group := some 0 }

/-- Concrete database for the recycle witness world: bin enabled, none yet. -/
def db4 : DbNode :=
  { rootGroup := 0, recycleBin := none, recycleBinEnabled := true, deletedObjects := [],
    customIcons := [] }

/-- Concrete world for the recycle witness: one database, a root group holding
one entry. -/
def w4 : World :=
  { groups := fun n => if n = 0 then some g4 else none,
    entries := fun n => if n = 5 then some e4 else none,
    dbs := fun n => if n = 0 then some db4 else none,
    nextId := 7, nextUuid := 200, now := 99 }

/-- Source root group for the cross-database witness world. -/
def gSrc : GroupNode :=
  { uuid := 10, name := "SrcRoot", iconNumber := 0, searchingEnabled := TriState.Inherit,
    autoTypeEnabled := TriState.Inherit, parent := none, db := some 0, entries := [5] }

/-- Destination root group for the cross-database witness world. -/
def gDst : GroupNode :=
  { uuid := 11, name := "DstRoot", iconNumber := 0, searchingEnabled := TriState.Inherit,
    autoTypeEnabled := TriState.Inherit, parent := none, db := some 1, entries := [] }

/-- Entry carrying a custom icon for the cross-database witness world. -/
def e9 : EntryNode := { uuid := 50, customIcon := some 77, group := some 0 }

/-- Source database of the cross-database witness world; its metadata stores
the icon. -/
def daSrc : DbNode :=
  { rootGroup := 0, recycleBin := none, recycleBinEnabled := true, deletedObjects := [],
    customIcons := [77] }

/-- Destination database of the cross-database witness world; its metadata
lacks the icon. -/
def dbDst : DbNode :=
  { rootGroup := 1, recycleBin := none, recycleBinEnabled := true, deletedObjects := [],
    customIcons := [] }

/-- Two-database world for the cross-database witness. -/
def w9 : World :=
  { groups := fun n => if n = 0 then some gSrc else if n = 1 then some gDst else none,
    entries := fun n => if n = 5 then some e9 else none,
    dbs := fun n => if n = 0 then some daSrc else if n = 1 then some dbDst else none,
    nextId := 7, nextUuid := 200, now := 99 }

/-! ### Placeholder resolution (Entry::resolveMultiplePlaceholdersRecursive /
resolvePlaceholderRecursive / resolveReferencePlaceholderRecursive,
Entry.cpp 835-959, 1066-1074, 1112-1145)

The resolving entry is reduced to the fields the resolver reads; the database
tree is flattened to the depth-first list of its entries (PWorld).  The TOTP
code generator (totp/totp.h, external) is abstracted to a stored optional
code.  Group::findEntryBySearchTerm and EntryAttributes::matchReference are
not under src and are modelled from the spec where noted. -/

/-- Entry::PlaceholderType (Entry.h). -/
inductive PlaceholderType where
  | NotPlaceholder
  | Unknown
  | Title
  | UserName
  | Password
  | Notes
  | Totp
  | Url
  | UrlWithoutScheme
  | UrlScheme
  | UrlHost
  | UrlPort
  | UrlPath
  | UrlQuery
  | UrlFragment
  | UrlUserInfo
  | UrlUserName
  | UrlPassword
  | CustomAttribute
  | Reference
deriving Repr, DecidableEq

/-- EntryReferenceType (Entry.h); QUuid renamed UuidField. -/
inductive EntryReferenceType where
  | Unknown
  | Title
  | UserName
  | Password
  | Url
  | Notes
  | UuidField
  | CustomAttributes
deriving Repr, DecidableEq

/-- The fields of an Entry the resolver reads: uuid hex, the five default
attributes, the custom attribute map (keys unique, case-sensitive), and the
abstract TOTP code (none = no TOTP configured). -/
structure PEntry where
  uuidHex : String
  title : String
  username : String
  password : String
  url : String
  notes : String
  attrs : List (String × String)
  totpCode : Option String
deriving Repr, DecidableEq

/-- The database tree flattened to its depth-first entry list, used for
cross-entry reference lookup. -/
structure PWorld where
  entries : List PEntry
deriving Repr, DecidableEq

/-- Entry::referenceType (Entry.cpp 130-151): one-letter search-in codes,
case-insensitive. -/
def referenceType (s : String) : EntryReferenceType :=
  let l := lowStr s
  if l = "t" then EntryReferenceType.Title
  else if l = "u" then EntryReferenceType.UserName
  else if l = "p" then EntryReferenceType.Password
  else if l = "a" then EntryReferenceType.Url
  else if l = "n" then EntryReferenceType.Notes
  else if l = "i" then EntryReferenceType.UuidField
  else if l = "o" then EntryReferenceType.CustomAttributes
  else EntryReferenceType.Unknown

/-- Entry::referenceFieldValue (Entry.cpp 961-980). -/
def referenceFieldValue (e : PEntry) : EntryReferenceType → String
  | EntryReferenceType.Title => e.title
  | EntryReferenceType.UserName => e.username
  | EntryReferenceType.Password => e.password
  | EntryReferenceType.Url => e.url
  | EntryReferenceType.Notes => e.notes
  | EntryReferenceType.UuidField => e.uuidHex
  | _ => ""

/-- EntryAttributes value lookup: hasKey then value (value returns the empty
string for a missing key). -/
def attrValue (e : PEntry) (k : String) : Option String :=
  (e.attrs.find? (fun pr => pr.1 == k)).map (fun pr => pr.2)

/-- Modelled from the spec: the per-entry match of Group::findEntryBySearchTerm
(Group.cpp is not under src) - the field selected by the search type equals
the search text case-insensitively; a CustomAttributes search matches any
attribute value. -/
def matchesSearchTerm (e : PEntry) (term : String) : EntryReferenceType → Bool
  | EntryReferenceType.Title => lowStr e.title = lowStr term
  | EntryReferenceType.UserName => lowStr e.username = lowStr term
  | EntryReferenceType.Password => lowStr e.password = lowStr term
  | EntryReferenceType.Url => lowStr e.url = lowStr term
  | EntryReferenceType.Notes => lowStr e.notes = lowStr term
  | EntryReferenceType.UuidField => lowStr e.uuidHex = lowStr term
  | EntryReferenceType.CustomAttributes =>
    e.attrs.any (fun pr => lowStr pr.2 = lowStr term)
  | EntryReferenceType.Unknown => false

/-- Modelled from the spec: Group::findEntryBySearchTerm - depth-first walk of
the whole tree, first match wins (Group.cpp is not under src). -/
def findEntryBySearchTerm (w : PWorld) (term : String) (t : EntryReferenceType) :
    Option PEntry :=
  w.entries.find? (fun e => matchesSearchTerm e term t)

/-- Entry::placeholderType (Entry.cpp 1112-1145): brace test, the literal
brace-S-colon and brace-R-E-F-colon guards (case sensitive), then the
uppercase lookup table. -/
def placeholderType (p : String) : PlaceholderType :=
  if ¬ (startsWithStr p "\x7b" ∧ endsWithStr p "\x7d") then PlaceholderType.NotPlaceholder
  else if startsWithStr p "\x7bS:" then PlaceholderType.CustomAttribute
  else if startsWithStr p "\x7bREF:" then PlaceholderType.Reference
  else
    let u := upStr p
    if u = "{TITLE}" then PlaceholderType.Title
    else if u = "{USERNAME}" then PlaceholderType.UserName
    else if u = "{PASSWORD}" then PlaceholderType.Password
    else if u = "{NOTES}" then PlaceholderType.Notes
    else if u = "{TOTP}" then PlaceholderType.Totp
    else if u = "{URL}" then PlaceholderType.Url
    else if u = "{URL:RMVSCM}" then PlaceholderType.UrlWithoutScheme
    else if u = "{URL:WITHOUTSCHEME}" then PlaceholderType.UrlWithoutScheme
    else if u = "{URL:SCM}" then PlaceholderType.UrlScheme
    else if u = "{URL:SCHEME}" then PlaceholderType.UrlScheme
    else if u = "{URL:HOST}" then PlaceholderType.UrlHost
    else if u = "{URL:PORT}" then PlaceholderType.UrlPort
    else if u = "{URL:PATH}" then PlaceholderType.UrlPath
    else if u = "{URL:QUERY}" then PlaceholderType.UrlQuery
    else if u = "{URL:FRAGMENT}" then PlaceholderType.UrlFragment
    else if u = "{URL:USERINFO}" then PlaceholderType.UrlUserInfo
    else if u = "{URL:USERNAME}" then PlaceholderType.UrlUserName
    else if u = "{URL:PASSWORD}" then PlaceholderType.UrlPassword
    else PlaceholderType.Unknown

/-- Body scan of the minimal pattern brace, one or more non-closing-brace
characters, closing brace: the characters before the first closing brace and
the remainder after it; none when no closing brace follows. -/
def takeBody : List Char → Option (List Char × List Char)
  | [] => none
  | c :: cs =>
    if c = '}' then some ([], cs)
    else
      match takeBody cs with
      | some (b, r) => some (c :: b, r)
      | none => none

/-- The QRegExp scan loop of resolveMultiplePlaceholdersRecursive
(Entry.cpp 845-850) viewed as the left-to-right list of minimal bracketed
matches: at each opening brace, a match needs a nonempty body before the next
closing brace; an empty body makes the engine retry one character later, and
a missing closing brace ends the scan.  Fuel (one unit per character
consumed) makes the recursion structural. -/
def tokenizeAux : Nat → List Char → List String
  | 0, _ => []
  | _ + 1, [] => []
  | fuel + 1, c :: cs =>
    if c = '{' then
      match takeBody cs with
      | some (body, rest) =>
        if body = [] then tokenizeAux fuel cs
        else String.mk ('{' :: (body ++ ['}'])) :: tokenizeAux fuel rest
      | none => []
    else tokenizeAux fuel cs

/-- All placeholder tokens of a string in scan order. -/
def tokenize (s : String) : List String := tokenizeAux s.data.length s.data

/-- Parsed parts of a reference placeholder. -/
structure RefParts where
  wantedField : String
  searchIn : String
  searchText : String
deriving Repr, DecidableEq

/-- Search-text scan for the reference pattern: the text runs to a single
closing brace ending the string and contains no closing brace itself. -/
def splitTextBrace : List Char → Option (List Char)
  | [] => none
  | c :: cs =>
    if c = '}' then (if cs = [] then some [] else none)
    else (splitTextBrace cs).map (fun t => c :: t)

/-- Modelled from the spec: EntryAttributes::matchReference
(EntryAttributes.cpp is not under src) - the reference placeholder grammar
brace-REF-colon Field at SearchIn colon SearchText brace, with one-letter
field codes and nonempty search text. -/
def parseReference (p : String) : Option RefParts :=
  match p.data with
  | '{' :: 'R' :: 'E' :: 'F' :: ':' :: wf :: '@' :: si :: ':' :: rest =>
    match splitTextBrace rest with
    | some txt => if txt = [] then none else some
        { wantedField := String.mk [wf], searchIn := String.mk [si],
          searchText := String.mk txt }
    | none => none
  | _ => none

/-- Cut a character list at the first occurrence of a character. -/
def breakAtChar (c : Char) : List Char → Option (List Char × List Char)
  | [] => none
  | x :: xs =>
    if x = c then some ([], xs)
    else (breakAtChar c xs).map (fun pr => (x :: pr.1, pr.2))

/-- Cut a character list at the first occurrence of a sequence. -/
def breakAtSeq (pat : List Char) : List Char → Option (List Char × List Char)
  | [] => none
  | x :: xs =>
    if pat.isPrefixOf (x :: xs) then some ([], (x :: xs).drop pat.length)
    else (breakAtSeq pat xs).map (fun pr => (x :: pr.1, pr.2))

/-- Modelled from the spec: the URL-part extraction behind the URL placeholder
variants (QUrl is an external component), as a simplified parser of
scheme colon-slash-slash userinfo at host colon port slash path question query
hash fragment. -/
def urlParts (s : String) :
    String × String × String × String × String × String × String × String × String :=
  let cs := s.data
  let fragment := match breakAtChar '#' cs with
    | some pr => pr.2
    | none => []
  let beforeFragment := match breakAtChar '#' cs with
    | some pr => pr.1
    | none => cs
  let query := match breakAtChar '?' beforeFragment with
    | some pr => pr.2
    | none => []
  let beforeQuery := match breakAtChar '?' beforeFragment with
    | some pr => pr.1
    | none => beforeFragment
  let scheme := match breakAtSeq [':', '/', '/'] beforeQuery with
    | some pr => pr.1
    | none => []
  let afterScheme := match breakAtSeq [':', '/', '/'] beforeQuery with
    | some pr => pr.2
    | none => beforeQuery
  let authority := match breakAtChar '/' afterScheme with
    | some pr => pr.1
    | none => afterScheme
  let path := match breakAtChar '/' afterScheme with
    | some pr => '/' :: pr.2
    | none => []
  let userinfo := match breakAtChar '@' authority with
    | some pr => pr.1
    | none => []
  let hostport := match breakAtChar '@' authority with
    | some pr => pr.2
    | none => authority
  let host := match breakAtChar ':' hostport with
    | some pr => pr.1
    | none => hostport
  let port := match breakAtChar ':' hostport with
    | some pr => pr.2
    | none => []
  (String.mk scheme, String.mk userinfo, String.mk host, String.mk port,
   String.mk path, String.mk query, String.mk fragment,
   String.mk (match breakAtChar ':' userinfo with
    | some pr => pr.1
    | none => userinfo),
   String.mk (match breakAtChar ':' userinfo with
    | some pr => pr.2
    | none => []))

/-- Entry::resolveUrlPlaceholder (Entry.cpp 1076-1110) over the simplified
URL parser: empty input yields the empty string; an absent port reads -1 as
QUrl::port does. -/
def resolveUrlPlaceholder (s : String) (t : PlaceholderType) : String :=
  if s.data = [] then ""
  else
    let pr := urlParts s
    match t with
    | PlaceholderType.UrlWithoutScheme =>
      match breakAtSeq [':'] s.data with
      | some p2 => String.mk p2.2
      | none => s
    | PlaceholderType.UrlScheme => pr.1
    | PlaceholderType.UrlUserInfo => pr.2.1
    | PlaceholderType.UrlHost => pr.2.2.1
    | PlaceholderType.UrlPort =>
      if (pr.2.2.2.1).data = [] then "-1" else pr.2.2.2.1
    | PlaceholderType.UrlPath => pr.2.2.2.2.1
    | PlaceholderType.UrlQuery => pr.2.2.2.2.2.1
    | PlaceholderType.UrlFragment => pr.2.2.2.2.2.2.1
    | PlaceholderType.UrlUserName => pr.2.2.2.2.2.2.2.1
    | PlaceholderType.UrlPassword => pr.2.2.2.2.2.2.2.2
    | _ => ""

/-- The two recursion entry points: a whole string scan
(resolveMultiplePlaceholdersRecursive) or one placeholder
(resolvePlaceholderRecursive). -/
inductive RTask where
  | multi (s : String)
  | single (p : String)
deriving Repr, DecidableEq

/-- The input string of a task, returned unexpanded at depth zero. -/
def taskInput : RTask → String
  | RTask.multi s => s
  | RTask.single p => p

/-- One depth level of the resolver, parameterized by the resolver for the
next depth down; every recursive call in Entry.cpp runs at maxDepth - 1.  The
multi case is the scan loop of resolveMultiplePlaceholdersRecursive (845-850):
each token found in the original string is replaced everywhere in the evolving
result by its single-placeholder resolution, then a changed result is
rescanned one level down (852-854).  The single case is
resolvePlaceholderRecursive (859-921) with its self-reference guards, with
resolveReferencePlaceholderRecursive (923-959) inlined - its own depth guard
cannot fire there because the current depth is positive, and its only
recursive call also runs one level down on the referenced entry. -/
def resolveStep (w : PWorld) (rec : PEntry → RTask → String) (e : PEntry) :
    RTask → String
  | RTask.multi str =>
    let result := (tokenize str).foldl
      (fun res tok => strReplace res tok (rec e (RTask.single tok))) str
    if result ≠ str then rec e (RTask.multi result) else result
  | RTask.single p =>
    match placeholderType p with
    | PlaceholderType.NotPlaceholder => rec e (RTask.multi p)
    | PlaceholderType.Unknown => rec e (RTask.multi p)
    | PlaceholderType.Title =>
      if placeholderType e.title = PlaceholderType.Title then e.title
      else rec e (RTask.multi e.title)
    | PlaceholderType.UserName =>
      if placeholderType e.username = PlaceholderType.UserName then e.username
      else rec e (RTask.multi e.username)
    | PlaceholderType.Password =>
      if placeholderType e.password = PlaceholderType.Password then e.password
      else rec e (RTask.multi e.password)
    | PlaceholderType.Notes =>
      if placeholderType e.notes = PlaceholderType.Notes then e.notes
      else rec e (RTask.multi e.notes)
    | PlaceholderType.Url =>
      if placeholderType e.url = PlaceholderType.Url then e.url
      else rec e (RTask.multi e.url)
    | PlaceholderType.UrlWithoutScheme =>
      resolveUrlPlaceholder (rec e (RTask.multi e.url)) PlaceholderType.UrlWithoutScheme
    | PlaceholderType.UrlScheme =>
      resolveUrlPlaceholder (rec e (RTask.multi e.url)) PlaceholderType.UrlScheme
    | PlaceholderType.UrlHost =>
      resolveUrlPlaceholder (rec e (RTask.multi e.url)) PlaceholderType.UrlHost
    | PlaceholderType.UrlPort =>
      resolveUrlPlaceholder (rec e (RTask.multi e.url)) PlaceholderType.UrlPort
    | PlaceholderType.UrlPath =>
      resolveUrlPlaceholder (rec e (RTask.multi e.url)) PlaceholderType.UrlPath
    | PlaceholderType.UrlQuery =>
      resolveUrlPlaceholder (rec e (RTask.multi e.url)) PlaceholderType.UrlQuery
    | PlaceholderType.UrlFragment =>
      resolveUrlPlaceholder (rec e (RTask.multi e.url)) PlaceholderType.UrlFragment
    | PlaceholderType.UrlUserInfo =>
      resolveUrlPlaceholder (rec e (RTask.multi e.url)) PlaceholderType.UrlUserInfo
    | PlaceholderType.UrlUserName =>
      resolveUrlPlaceholder (rec e (RTask.multi e.url)) PlaceholderType.UrlUserName
    | PlaceholderType.UrlPassword =>
      resolveUrlPlaceholder (rec e (RTask.multi e.url)) PlaceholderType.UrlPassword
    | PlaceholderType.Totp =>
      match e.totpCode with
      | some c => c
      | none => ""
    | PlaceholderType.CustomAttribute =>
      let key := dropRightStr (dropStr p 3) 1
      match attrValue e key with
      | some v => v
      | none => ""
    | PlaceholderType.Reference =>
      match parseReference p with
      | none => p
      | some pr =>
        match findEntryBySearchTerm w pr.searchText (referenceType pr.searchIn) with
        | none => ""
        | some re =>
          rec re (RTask.multi (referenceFieldValue re (referenceType pr.wantedField)))

/-- The depth-bounded resolver: at depth zero every task returns its input
unexpanded (the termination guard of Entry.cpp 837-840, 861-864); otherwise
one resolveStep runs with the resolver at the next depth down. -/
def resolveRec (w : PWorld) : Nat → PEntry → RTask → String
  | 0, _, t => taskInput t
  | d + 1, e, t => resolveStep w (resolveRec w d) e t

/-- Entry::ResolveMaximumDepth (Entry.cpp 35). -/
def ResolveMaximumDepth : Nat := 10

/-- Entry::resolveMultiplePlaceholders (Entry.cpp 1066-1069). -/
def resolveMultiplePlaceholders (w : PWorld) (e : PEntry) (s : String) : String :=
  resolveRec w ResolveMaximumDepth e (RTask.multi s)

/-- Entry::resolvePlaceholder (Entry.cpp 1071-1074). -/
def resolvePlaceholder (w : PWorld) (e : PEntry) (p : String) : String :=
  resolveRec w ResolveMaximumDepth e (RTask.single p)

/-- First entry of the mutual reference cycle: its Title references the entry
whose UserName is bob. -/
def entryCycleA : PEntry :=
  { uuidHex := "aa", title := "{REF:T@U:bob}", username := "alice", password := "",
    url := "", notes := "", attrs := [], totpCode := none }

/-- Second entry of the mutual reference cycle: its Title references back the
entry whose UserName is alice. -/
def entryCycleB : PEntry :=
  { uuidHex := "bb", title := "{REF:T@U:alice}", username := "bob", password := "",
    url := "", notes := "", attrs := [], totpCode := none }

/-- The world holding the mutually cyclic pair. -/
def cycleWorld : PWorld := { entries := [entryCycleA, entryCycleB] }

/-- The entry of the self-reference example: Title is the password
placeholder, Password is secret. -/
def selfRefEntry : PEntry :=
  { uuidHex := "cc", title := "{PASSWORD}", username := "", password := "secret",
    url := "", notes := "", attrs := [], totpCode := none }

/-- The world holding the self-reference example entry. -/
def selfRefWorld : PWorld := { entries := [selfRefEntry] }

/-- An entry whose Title and Password fields are placeholders of their own
type, triggering both self-reference guards. -/
def guardEntry : PEntry :=
  { uuidHex := "dd", title := "{title}", username := "", password := "{PASSWORD}",
    url := "", notes := "", attrs := [], totpCode := none }

theorem truncBySize_gt (limit : Nat) (l : List HistEntry) (acc : Nat) (h : acc > limit) :
    truncBySize limit l acc = [] := by
  induction l generalizing acc with
  | nil => rfl
  | cons x rest ih =>
    simp only [truncBySize]
    have hle : ¬ acc ≤ limit := by omega
    simp only [if_neg hle, if_pos h]
    exact ih acc h

theorem truncBySize_eq_keepWhileUnder (limit : Nat) (l : List HistEntry) (acc : Nat)
    (h : acc ≤ limit) : truncBySize limit l acc = keepWhileUnder limit l acc := by
  induction l generalizing acc with
  | nil => rfl
  | cons x rest ih =>
    simp only [truncBySize, keepWhileUnder, if_pos h]
    by_cases h2 : acc + histSize x ≤ limit
    · have : ¬ acc + histSize x > limit := by omega
      simp only [if_neg this, if_pos h2]
      exact congrArg _ (ih _ h2)
    · have hgt : acc + histSize x > limit := by omega
      simp only [if_pos hgt, if_neg h2]
      exact truncBySize_gt limit rest _ hgt

theorem truncByCount_eq_drop (n : Nat) (l : List HistEntry) :
    truncByCount n l = l.drop (l.length - n) := by
  unfold truncByCount
  rw [List.reverse_take]
  simp

/-- C6: after history retention trimming, the count pass (when
historyMaxItems >= 0) keeps exactly the newest historyMaxItems snapshots, the
size pass (when historyMaxSize >= 0) walks newest to oldest and deletes every
item at and beyond the point where the running byte total exceeds the limit,
and a limit of -1 disables that dimension entirely. -/
theorem truncateHistory_spec (histMaxItems histMaxSize : Int) (history : List HistEntry) :
    truncateHistory histMaxItems histMaxSize history =
      (let afterCount :=
        if 0 ≤ histMaxItems then history.drop (history.length - histMaxItems.toNat) else history
      if 0 ≤ histMaxSize then (keepWhileUnder histMaxSize.toNat afterCount.reverse 0).reverse
      else afterCount) := by
  unfold truncateHistory
  by_cases h1 : 0 ≤ histMaxItems
  · have g1 : histMaxItems > -1 := by omega
    by_cases h2 : 0 ≤ histMaxSize
    · have g2 : histMaxSize > -1 := by omega
      simp only [if_pos g1, if_pos g2, if_pos h1, if_pos h2, truncByCount_eq_drop,
        truncBySize_eq_keepWhileUnder _ _ _ (Nat.zero_le _)]
    · have g2 : ¬ histMaxSize > -1 := by omega
      simp only [if_pos g1, if_neg g2, if_pos h1, if_neg h2, truncByCount_eq_drop]
  · have g1 : ¬ histMaxItems > -1 := by omega
    by_cases h2 : 0 ≤ histMaxSize
    · have g2 : histMaxSize > -1 := by omega
      simp only [if_neg g1, if_pos g2, if_neg h1, if_pos h2,
        truncBySize_eq_keepWhileUnder _ _ _ (Nat.zero_le _)]
    · have g2 : ¬ histMaxSize > -1 := by omega
      simp only [if_neg g1, if_neg g2, if_neg h1, if_neg h2]

/-- C8 counterexample: on a database with no stored key, a failing derivation
still mutates the stored key components - the null key has been replaced by an
empty composite key when changeKdf returns failure. -/
theorem changeKdf_null_key_counterexample :
    (changeKdf { key := none, transformedMasterKey := [], hasKey := false,
                 kdf := { seed := 0, params := 0 }, modified := false }
        { seed := 1, params := 1 } (fun _ _ => none) 5).2 = false ∧
    (changeKdf { key := none, transformedMasterKey := [], hasKey := false,
                 kdf := { seed := 0, params := 0 }, modified := false }
        { seed := 1, params := 1 } (fun _ _ => none) 5).1.key ≠ none := by
  constructor
  · rfl
  · intro h
    simp [changeKdf] at h

/-- C8 (amended): when derivation under the new configuration fails, changeKdf
returns failure and leaves the KDF configuration, the transformed master key,
hasKey and the modified flag unchanged; the stored key components are also
unchanged except that a previously absent key has been replaced by an empty
composite key. -/
theorem changeKdf_failure_preserves_state (st : KeyData) (newKdf : KdfConfig)
    (transform : CompositeKey → KdfConfig → Option Bytes) (freshSeed : Nat)
    (hfail : (changeKdf st newKdf transform freshSeed).2 = false) :
    (changeKdf st newKdf transform freshSeed).1.kdf = st.kdf ∧
    (changeKdf st newKdf transform freshSeed).1.transformedMasterKey
      = st.transformedMasterKey ∧
    (changeKdf st newKdf transform freshSeed).1.hasKey = st.hasKey ∧
    (changeKdf st newKdf transform freshSeed).1.modified = st.modified ∧
    (∀ k, st.key = some k → (changeKdf st newKdf transform freshSeed).1.key = some k) ∧
    (st.key = none →
      (changeKdf st newKdf transform freshSeed).1.key = some { components := [] }) := by
  rcases hst : st.key with _ | k <;>
    simp only [changeKdf, hst] at hfail ⊢ <;>
    rcases htr : transform _ { newKdf with seed := freshSeed } with _ | tmk <;>
    simp only [htr] at hfail ⊢ <;>
    simp_all

/-- Witness for changeKdf_failure_preserves_state at a concrete failing
derivation. -/
theorem changeKdf_failure_witness :
    (changeKdf { key := some { components := [[3]] }, transformedMasterKey := [7],
                 hasKey := true, kdf := { seed := 0, params := 0 }, modified := false }
        { seed := 1, params := 1 } (fun _ _ => none) 5).1.kdf
      = { seed := 0, params := 0 } ∧
    (changeKdf { key := some { components := [[3]] }, transformedMasterKey := [7],
                 hasKey := true, kdf := { seed := 0, params := 0 }, modified := false }
        { seed := 1, params := 1 } (fun _ _ => none) 5).1.transformedMasterKey = [7] := by
  have h := changeKdf_failure_preserves_state
    { key := some { components := [[3]] }, transformedMasterKey := [7],
      hasKey := true, kdf := { seed := 0, params := 0 }, modified := false }
    { seed := 1, params := 1 } (fun _ _ => none) 5 rfl
  exact ⟨h.1, h.2.1⟩

/-- C10: setKey with transformKey=false on a database that had no previous key
succeeds, sets hasKey to true, stores the component set, and leaves the
transformed master key as the empty marker, so the stored components and the
transformed key used for encryption disagree. -/
theorem setKey_noTransform_spec (st : KeyData) (k : CompositeKey)
    (updateTransformSalt : Bool)
    (transform : CompositeKey → KdfConfig → Option Bytes) (freshSeed : Nat)
    (hnokey : st.hasKey = false) (hempty : st.transformedMasterKey = []) :
    (setKey st (some k) updateTransformSalt false transform freshSeed).2 = true ∧
    (setKey st (some k) updateTransformSalt false transform freshSeed).1.hasKey = true ∧
    (setKey st (some k) updateTransformSalt false transform
      freshSeed).1.transformedMasterKey = [] ∧
    (setKey st (some k) updateTransformSalt false transform freshSeed).1.key = some k := by
  cases updateTransformSalt <;> simp [setKey, hnokey, hempty]

/-- Witness for setKey_noTransform_spec at a concrete keyless state. -/
theorem setKey_noTransform_witness :
    (setKey { key := none, transformedMasterKey := [], hasKey := false,
              kdf := { seed := 0, params := 0 }, modified := false }
        (some { components := [[1, 2]] }) true false (fun _ _ => some [9]) 7).2 = true ∧
    (setKey { key := none, transformedMasterKey := [], hasKey := false,
              kdf := { seed := 0, params := 0 }, modified := false }
        (some { components := [[1, 2]] }) true false (fun _ _ => some [9]) 7).1.hasKey
      = true ∧
    (setKey { key := none, transformedMasterKey := [], hasKey := false,
              kdf := { seed := 0, params := 0 }, modified := false }
        (some { components := [[1, 2]] }) true false (fun _ _ => some [9])
        7).1.transformedMasterKey = [] ∧
    (setKey { key := none, transformedMasterKey := [], hasKey := false,
              kdf := { seed := 0, params := 0 }, modified := false }
        (some { components := [[1, 2]] }) true false (fun _ _ => some [9]) 7).1.key
      = some { components := [[1, 2]] } :=
  setKey_noTransform_spec _ _ _ _ _ rfl rfl

/-- C1 counterexample: a read-only database saving to its own path with a
mismatched on-disk checksum fails with the read-only error, not the
unmerged-changes error, so the checksum check is not what rejects that save. -/
theorem saveAs_readOnly_counterexample :
    (saveAs { filePath := "db.kdbx", isReadOnly := true, modified := false }
        { target := some 1, backup := none, temp := none } "db.kdbx" false
        { openOk := true, writeOk := true, commitOk := true, renameOk := true,
          restoreCopyOk := true } true false 2 "tmp").2.2
      = Except.error SaveAsError.readOnlyError ∧
    (Except.error SaveAsError.readOnlyError : Except SaveAsError Unit)
      ≠ Except.error SaveAsError.unmergedChangesError := by
  exact ⟨rfl, by simp⟩

/-- C1 (amended): for a database that is not read-only, saving to the current
file path fails with the unmerged-changes error and touches nothing whenever
the monitor reports a changed checksum; when the checksum still matches the
save is not blocked by the check and its file-system effect and outcome are
exactly performSave's; and a same-path save never succeeds without the
checksum having matched. -/
theorem saveAs_samePath_checksum (ctx : DbFileCtx) (fs : FS) (csum : Bool)
    (faults : SaveFaults) (atomic backup : Bool) (newData : Nat) (tempPath : String)
    (hro : ctx.isReadOnly = false) :
    (csum = false →
      saveAs ctx fs ctx.filePath csum faults atomic backup newData tempPath
        = (ctx, fs, Except.error SaveAsError.unmergedChangesError)) ∧
    (csum = true →
      (saveAs ctx fs ctx.filePath csum faults atomic backup newData tempPath).2.1
        = (performSave fs faults atomic backup newData tempPath).1 ∧
      ((saveAs ctx fs ctx.filePath csum faults atomic backup newData tempPath).2.2
          = Except.ok ()
        ↔ (performSave fs faults atomic backup newData tempPath).2 = Except.ok ())) ∧
    ((saveAs ctx fs ctx.filePath csum faults atomic backup newData tempPath).2.2
        = Except.ok () → csum = true) := by
  have hcond1 : ¬ (ctx.filePath = ctx.filePath ∧ ctx.isReadOnly = true) := by
    simp [hro]
  cases csum with
  | false =>
    have heq : saveAs ctx fs ctx.filePath false faults atomic backup newData tempPath
        = (ctx, fs, Except.error SaveAsError.unmergedChangesError) := by
      simp [saveAs, hro]
    refine ⟨fun _ => heq, ?_, ?_⟩
    · intro h
      exact absurd h (by simp)
    · intro hok
      rw [heq] at hok
      exact absurd hok (by simp)
  | true =>
    refine ⟨?_, ?_, fun _ => rfl⟩
    · intro h
      exact absurd h (by simp)
    · intro _
      rcases hperf : (performSave fs faults atomic backup newData tempPath).2 with _ | err
      · constructor
        · simp [saveAs, hro, hperf]
        · simp [saveAs, hro, hperf]
      · constructor
        · simp [saveAs, hro, hperf]
        · simp [saveAs, hro, hperf]

/-- Witness for saveAs_samePath_checksum on a concrete writable database with
a mismatched checksum. -/
theorem saveAs_samePath_checksum_witness :
    saveAs { filePath := "db.kdbx", isReadOnly := false, modified := true }
        { target := some 1, backup := none, temp := none }
        ({ filePath := "db.kdbx", isReadOnly := false,
           modified := true } : DbFileCtx).filePath false
        { openOk := true, writeOk := true, commitOk := true, renameOk := true,
          restoreCopyOk := true } true false 2 "tmp"
      = ({ filePath := "db.kdbx", isReadOnly := false, modified := true },
         { target := some 1, backup := none, temp := none },
         Except.error SaveAsError.unmergedChangesError) :=
  (saveAs_samePath_checksum
    { filePath := "db.kdbx", isReadOnly := false, modified := true }
    { target := some 1, backup := none, temp := none } false
    { openOk := true, writeOk := true, commitOk := true, renameOk := true,
      restoreCopyOk := true } true false 2 "tmp" rfl).1 rfl

/-- C2 counterexample: a non-atomic save with backups disabled whose final
rename fails leaves the target file deleted, so a failed save does not always
leave the previously-saved file intact. -/
theorem performSave_clobber_counterexample :
    (performSave { target := some 1, backup := none, temp := none }
        { openOk := true, writeOk := true, commitOk := true, renameOk := false,
          restoreCopyOk := true } false false 2 "tmp").2 ≠ Except.ok () ∧
    (performSave { target := some 1, backup := none, temp := none }
        { openOk := true, writeOk := true, commitOk := true, renameOk := false,
          restoreCopyOk := true } false false 2 "tmp").1.target ≠ some 1 := by
  constructor
  · intro h
    exact absurd h (by simp [performSave])
  · intro h
    exact absurd h (by simp [performSave])

/-- C2 (amended): in atomic mode a failed save leaves the target bytes
unchanged, and when the write phase succeeded with backups enabled the backup
file holds the pre-save target bytes; in non-atomic mode a failed save leaves
the target unchanged - including restoring it from the backup when the final
rename failed but the restore succeeded - except when the failure is the
rename-failed case with no usable backup, in which case the newly written
temporary file is preserved instead. -/
theorem performSave_failure_spec (fs : FS) (faults : SaveFaults) (atomic backup : Bool)
    (newData : Nat) (tempPath : String)
    (hfail : (performSave fs faults atomic backup newData tempPath).2 ≠ Except.ok ()) :
    (atomic = true →
      (performSave fs faults atomic backup newData tempPath).1.target = fs.target ∧
      (backup = true → faults.openOk = true → faults.writeOk = true →
        (performSave fs faults atomic backup newData tempPath).1.backup = fs.target)) ∧
    (atomic = false →
      ((performSave fs faults atomic backup newData tempPath).2
          ≠ Except.error (SaveError.renameErrorTempKept tempPath) →
        (performSave fs faults atomic backup newData tempPath).1.target = fs.target) ∧
      ((performSave fs faults atomic backup newData tempPath).2
          = Except.error (SaveError.renameErrorTempKept tempPath) →
        (performSave fs faults atomic backup newData tempPath).1.temp = some newData)) := by
  obtain ⟨o, w, c, r, rc⟩ := faults
  obtain ⟨t, b, tm⟩ := fs
  cases atomic <;> cases backup <;> cases o <;> cases w <;> cases c <;> cases r <;>
    cases rc <;> rcases t with _ | d <;>
    simp_all [performSave, backupDatabase, restoreDatabase]

/-- Witness for performSave_failure_spec at a concrete failing atomic commit
after a successful backup. -/
theorem performSave_failure_witness :
    (performSave { target := some 1, backup := none, temp := none }
        { openOk := true, writeOk := true, commitOk := false, renameOk := true,
          restoreCopyOk := true } true true 2 "tmp").1.target = some 1 ∧
    (performSave { target := some 1, backup := none, temp := none }
        { openOk := true, writeOk := true, commitOk := false, renameOk := true,
          restoreCopyOk := true } true true 2 "tmp").1.backup = some 1 := by
  have h := performSave_failure_spec { target := some 1, backup := none, temp := none }
    { openOk := true, writeOk := true, commitOk := false, renameOk := true,
      restoreCopyOk := true } true true 2 "tmp" (by simp [performSave, backupDatabase])
  exact ⟨(h.1 rfl).1, (h.1 rfl).2 rfl rfl rfl⟩

/-- C3: in non-atomic mode, when the final rename fails and either no backup
was made or restoring from the backup also fails, the temporary file holding
the newly written database is kept and its path is carried in the returned
error. -/
theorem performSave_rename_failure_keeps_temp (fs : FS) (faults : SaveFaults)
    (backup : Bool) (newData : Nat) (tempPath : String)
    (hopen : faults.openOk = true) (hwrite : faults.writeOk = true)
    (hrename : faults.renameOk = false)
    (hnorestore : backup = false ∨ fs.target = none ∨ faults.restoreCopyOk = false) :
    (performSave fs faults false backup newData tempPath).2
      = Except.error (SaveError.renameErrorTempKept tempPath) ∧
    (performSave fs faults false backup newData tempPath).1.temp = some newData := by
  obtain ⟨o, w, c, r, rc⟩ := faults
  obtain ⟨t, b, tm⟩ := fs
  cases backup <;> cases rc <;> rcases t with _ | d <;>
    simp_all [performSave, backupDatabase, restoreDatabase]

/-- Witness for performSave_rename_failure_keeps_temp with backups enabled but
an absent target. -/
theorem performSave_rename_failure_witness :
    (performSave { target := none, backup := some 9, temp := none }
        { openOk := true, writeOk := true, commitOk := true, renameOk := false,
          restoreCopyOk := true } false true 2 "tmp").2
      = Except.error (SaveError.renameErrorTempKept "tmp") ∧
    (performSave { target := none, backup := some 9, temp := none }
        { openOk := true, writeOk := true, commitOk := true, renameOk := false,
          restoreCopyOk := true } false true 2 "tmp").1.temp = some 2 :=
  performSave_rename_failure_keeps_temp { target := none, backup := some 9, temp := none }
    { openOk := true, writeOk := true, commitOk := true, renameOk := false,
      restoreCopyOk := true } true 2 "tmp" rfl rfl rfl (Or.inr (Or.inl rfl))

/-- C4: recycling an entry of an attached database: with the recycle-bin
feature enabled and no bin yet, a fresh bin group is created as a direct child
of the root with searching and auto-type disabled and the entry is reparented
under it with no tombstone recorded; with the feature enabled and a bin
present in the same database, the entry is reparented under the bin and no
database's tombstone list changes; with the feature disabled, the entry is
destroyed and exactly one tombstone carrying its uuid is appended. -/
theorem recycleEntry_spec (w : World) (dbId eid og : Nat) (db : DbNode) (e : EntryNode)
    (ogn : GroupNode)
    (hdb : getDb w dbId = some db) (hent : getEntry w eid = some e)
    (hgrp : e.group = some og) (hog : getGroup w og = some ogn)
    (hogdb : ogn.db = some dbId) :
    (db.recycleBinEnabled = true → db.recycleBin = none → getGroup w w.nextId = none →
      getDb (recycleEntry w dbId eid) dbId = some { db with recycleBin := some w.nextId } ∧
      getGroup (recycleEntry w dbId eid) w.nextId = some
        { uuid := w.nextUuid, name := "Recycle Bin", iconNumber := RecycleBinIconNumber,
          searchingEnabled := TriState.Disable, autoTypeEnabled := TriState.Disable,
          parent := some db.rootGroup, db := some dbId, entries := [eid] } ∧
      getEntry (recycleEntry w dbId eid) eid = some { e with group := some w.nextId }) ∧
    (db.recycleBinEnabled = true → ∀ b bn, db.recycleBin = some b → getGroup w b = some bn →
      bn.db = some dbId →
      (recycleEntry w dbId eid).dbs = w.dbs ∧
      getEntry (recycleEntry w dbId eid) eid = some { e with group := some b }) ∧
    (db.recycleBinEnabled = false →
      getEntry (recycleEntry w dbId eid) eid = none ∧
      getDb (recycleEntry w dbId eid) dbId = some
        { db with deletedObjects :=
            db.deletedObjects ++ [{ uuid := e.uuid, deletionTime := w.now }] }) := by
  have hdbr : w.dbs dbId = some db := hdb
  have hentr : w.entries eid = some e := hent
  have hogr : w.groups og = some ogn := hog
  refine ⟨?_, ?_, ?_⟩
  · intro hen hbno hfresh
    have hfreshr : w.groups w.nextId = none := hfresh
    have hogne : og ≠ w.nextId := by
      intro h
      rw [h, hfreshr] at hogr
      cases hogr
    refine ⟨?_, ?_, ?_⟩ <;>
      simp [recycleEntry, createRecycleBin, entrySetGroup, entryDestroy, groupRemoveEntry,
        groupAddEntry, addDeletedObject, updGroup, updEntry, updDb, getGroup, getEntry,
        getDb, hdbr, hentr, hgrp, hogr, hogdb, hen, hbno, hogne]
  · intro hen b bn hbin hbn hbdb
    have hbnr : w.groups b = some bn := hbn
    by_cases hob : og = b
    · subst hob
      constructor <;>
        simp [recycleEntry, entrySetGroup, updGroup, updEntry, updDb, getGroup, getEntry,
          getDb, hdbr, hentr, hgrp, hen, hbin] <;>
        cases e <;> simp_all
    · constructor <;>
        simp [recycleEntry, entrySetGroup, groupRemoveEntry, groupAddEntry, updGroup,
          updEntry, updDb, getGroup, getEntry, getDb, hdbr, hentr, hgrp, hogr, hogdb,
          hen, hbin, hbnr, hbdb, hob]
  · intro hdis
    constructor <;>
      simp [recycleEntry, entryDestroy, groupRemoveEntry, addDeletedObject, updGroup,
        updDb, getGroup, getEntry, getDb, hdbr, hentr, hgrp, hogr, hogdb, hdis]

/-- Witness for recycleEntry_spec on the concrete one-database world: the
enabled, bin-absent branch with every hypothesis discharged. -/
theorem recycleEntry_spec_witness :
    getDb (recycleEntry w4 0 5) 0 = some { db4 with recycleBin := some w4.nextId } ∧
    getGroup (recycleEntry w4 0 5) w4.nextId = some
      { uuid := w4.nextUuid, name := "Recycle Bin", iconNumber := RecycleBinIconNumber,
        searchingEnabled := TriState.Disable, autoTypeEnabled := TriState.Disable,
        parent := some db4.rootGroup, db := some 0, entries := [5] } ∧
    getEntry (recycleEntry w4 0 5) 5 = some { e4 with group := some w4.nextId } :=
  (recycleEntry_spec w4 0 5 0 db4 e4 g4 rfl rfl rfl rfl rfl).1 rfl rfl rfl

/-- Helper: appending a tombstone does not change any custom icon store. -/
theorem containsCustomIcon_addDeletedObject (w : World) (i : Nat) (u : Uuid) (j : Nat)
    (ic : Uuid) :
    containsCustomIcon (addDeletedObject w i u) j ic = containsCustomIcon w j ic := by
  simp only [containsCustomIcon, addDeletedObject, updDb, getDb]
  by_cases h : j = i
  · subst h
    cases w.dbs j <;> simp
  · simp [h]

/-- C9: Entry::setGroup moving an entry from a group of one attached database
to a group of a different database appends a tombstone with the entry's uuid
to the source database, and copies the entry's custom icon into the
destination database's metadata when the source store has it and the
destination store lacks it; reparenting within one database changes no
database's state at all. -/
theorem setGroup_crossDb_spec (w : World) (eid gid og a b : Nat) (e : EntryNode)
    (ogn g : GroupNode) (da : DbNode)
    (hent : getEntry w eid = some e) (hgrp : e.group = some og)
    (hog : getGroup w og = some ogn) (hsrc : ogn.db = some a)
    (hg : getGroup w gid = some g) (hdst : g.db = some b)
    (hda : getDb w a = some da) :
    (a ≠ b →
      getDb (entrySetGroup w eid gid) a = some
        { da with deletedObjects := da.deletedObjects
            ++ [{ uuid := e.uuid, deletionTime := w.now }] } ∧
      (∀ ic dbB, e.customIcon = some ic → getDb w b = some dbB →
        containsCustomIcon w a ic = true → containsCustomIcon w b ic = false →
        getDb (entrySetGroup w eid gid) b = some
          { dbB with customIcons := dbB.customIcons ++ [ic] })) ∧
    (a = b → ∀ d, (entrySetGroup w eid gid).dbs d = w.dbs d) := by
  have hentr : w.entries eid = some e := hent
  have hogr : w.groups og = some ogn := hog
  have hgr : w.groups gid = some g := hg
  have hdar : w.dbs a = some da := hda
  constructor
  · intro hab
    have hogid : og ≠ gid := by
      intro h
      rw [h, hgr] at hogr
      injection hogr with hh
      rw [← hh, hdst] at hsrc
      injection hsrc with hs
      exact hab hs.symm
    constructor
    · rcases hic : e.customIcon with _ | ic <;>
        · simp [entrySetGroup, getEntry, getGroup, getDb, hentr, hgr, hgrp, hogr, hsrc,
            hdst, hic, hogid, hab, Ne.symm hab, groupRemoveEntry, groupAddEntry,
            addDeletedObject, addCustomIcon, updGroup, updEntry, updDb, hdar]
          try split <;> simp_all [addCustomIcon, updDb, getDb]
    · intro ic dbB hic hdbB hhas hlacks
      have hdbBr : w.dbs b = some dbB := hdbB
      have hmem : ic ∈ da.customIcons := by
        have h2 : da.customIcons.contains ic = true := by
          simpa [containsCustomIcon, getDb, hdar] using hhas
        simpa using h2
      have hnmem : ic ∉ dbB.customIcons := by
        have h2 : dbB.customIcons.contains ic = false := by
          simpa [containsCustomIcon, getDb, hdbBr] using hlacks
        simpa using h2
      simp [entrySetGroup, getEntry, getGroup, getDb, hentr, hgr, hgrp, hogr, hsrc,
        hdst, hic, hogid, hab, Ne.symm hab, groupRemoveEntry, groupAddEntry,
        addDeletedObject, addCustomIcon, updGroup, updEntry, updDb, containsCustomIcon,
        hdar, hdbBr, hmem, hnmem]
  · intro hab d
    subst hab
    by_cases hgid : e.group = some gid
    · simp [entrySetGroup, getEntry, getGroup, hentr, hgr, hgid]
    · simp only [entrySetGroup, getEntry, getGroup, getDb, hentr, hgr, hgid, hgrp, hogr,
        hsrc, hdst, groupRemoveEntry, groupAddEntry, updGroup, updEntry,
        Option.some_bind]
      split <;> simp

/-- Witness for setGroup_crossDb_spec on the concrete two-database world: the
cross-database branch with every hypothesis discharged, including the icon
copy. -/
theorem setGroup_crossDb_spec_witness :
    getDb (entrySetGroup w9 5 1) 0 = some
      { daSrc with deletedObjects := daSrc.deletedObjects
          ++ [{ uuid := e9.uuid, deletionTime := w9.now }] } ∧
    getDb (entrySetGroup w9 5 1) 1 = some
      { dbDst with customIcons := dbDst.customIcons ++ [77] } :=
  ⟨((setGroup_crossDb_spec w9 5 1 0 0 1 e9 gSrc gDst daSrc rfl rfl rfl rfl rfl rfl
      rfl).1 (by decide)).1,
   ((setGroup_crossDb_spec w9 5 1 0 0 1 e9 gSrc gDst daSrc rfl rfl rfl rfl rfl rfl
      rfl).1 (by decide)).2 77 dbDst rfl rfl rfl rfl⟩

/-- C5: placeholder resolution terminates for every input and entry
configuration - the resolver is a total function bounded by the hard depth
ceiling whose default is 10, a remaining depth of zero returns the input
unexpanded, and the crafted mutually cyclic pair of REF titles resolves to a
definite bounded string (the input, returned when the ceiling is reached)
rather than looping. -/
theorem resolveMultiplePlaceholders_terminates :
    ResolveMaximumDepth = 10 ∧
    (∀ (w : PWorld) (e : PEntry) (t : RTask), resolveRec w 0 e t = taskInput t) ∧
    (∀ (w : PWorld) (e : PEntry) (s : String), resolveMultiplePlaceholders w e s
      = resolveRec w ResolveMaximumDepth e (RTask.multi s)) ∧
    resolveMultiplePlaceholders cycleWorld entryCycleA "{REF:T@U:bob}"
      = "{REF:T@U:bob}" :=
  ⟨rfl, fun _ _ _ => rfl, fun _ _ _ => rfl, rfl⟩

/-- C7: a placeholder whose type matches the field being produced returns the
literal stored value without further expansion (shown for the Title and
Password guards at any positive depth), and the entry with Title PASSWORD
placeholder and Password secret resolves the TITLE placeholder to secret,
while resolving the PASSWORD placeholder from within the Title expansion
terminates with secret instead of looping. -/
theorem resolvePlaceholder_selfReference (w : PWorld) (e : PEntry) (p : String)
    (d : Nat) :
    (placeholderType p = PlaceholderType.Title →
      placeholderType e.title = PlaceholderType.Title →
      resolveRec w (d + 1) e (RTask.single p) = e.title) ∧
    (placeholderType p = PlaceholderType.Password →
      placeholderType e.password = PlaceholderType.Password →
      resolveRec w (d + 1) e (RTask.single p) = e.password) ∧
    resolvePlaceholder selfRefWorld selfRefEntry "{TITLE}" = "secret" ∧
    resolvePlaceholder selfRefWorld selfRefEntry "{PASSWORD}" = "secret" := by
  refine ⟨?_, ?_, rfl, rfl⟩
  · intro hp ht
    simp [resolveRec, resolveStep, hp, ht]
  · intro hp ht
    simp [resolveRec, resolveStep, hp, ht]

/-- Witness for resolvePlaceholder_selfReference on an entry whose Title and
Password are placeholders of their own type, with both guards discharged at
concrete placeholders. -/
theorem resolvePlaceholder_selfReference_witness :
    resolveRec selfRefWorld 1 guardEntry (RTask.single "{TITLE}") = guardEntry.title ∧
    resolveRec selfRefWorld 1 guardEntry (RTask.single "{password}")
      = guardEntry.password ∧
    resolvePlaceholder selfRefWorld selfRefEntry "{TITLE}" = "secret" :=
  ⟨(resolvePlaceholder_selfReference selfRefWorld guardEntry "{TITLE}" 0).1 rfl rfl,
   (resolvePlaceholder_selfReference selfRefWorld guardEntry "{password}" 0).2.1 rfl rfl,
   (resolvePlaceholder_selfReference selfRefWorld guardEntry "{TITLE}" 0).2.2.1⟩

end KeePass

